import Mathlib

/-!
Shallow embedding of the LocalORM query engine: the JS value model, the
predicate evaluator `Entity.matches`, the fluent query builder `Entity`
(`where`/`limit`/`skip`/`with`, `get`/`find`, `clear`), relation lookup
(`Model.relation`, `Entity.loadRelations`) and the relation descriptors
(`OneToOne.getRelated` / `OneToMany.getRelated`), translated from
`src/orm/entity.ts`, `src/orm/model.ts` and `src/orm/relation.ts`.
-/

/-- JS runtime values occurring in stored records and filter operands: strings,
numbers, booleans, arrays, `null` and `undefined`.  Numbers are modelled as
integers (the engine's own examples and tests use integral ids and ages). -/
inductive Value where
  | vstr (s : String)
  | vnum (n : Int)
  | vbool (b : Bool)
  | varr (l : List Value)
  | vnull
  | vundefined

/-- JS strict equality `===` on the modelled values.  On arrays `===` compares
object references, and a query operand and a store-materialized record value
are always distinct objects, so array-array strict equality is `false` here. -/
def Value.beq : Value → Value → Bool
  | .vstr a, .vstr b => a == b
  | .vnum a, .vnum b => a == b
  | .vbool a, .vbool b => a == b
  | .vnull, .vnull => true
  | .vundefined, .vundefined => true
  | _, _ => false

instance : BEq Value := ⟨Value.beq⟩

/-- The `typeof x === "string"` test used by the string operators. -/
def Value.isStr : Value → Bool
  | .vstr _ => true
  | _ => false

/-- The numeric coercion performed by the JS relational operators, for the
value shapes the engine meets: numbers stay themselves, booleans and `null`
coerce to 0/1; strings, arrays and `undefined` are modelled as having no
numeric value (the NaN outcome: every relational comparison on them is
`false`). -/
def Value.toNum : Value → Option Int
  | .vnum n => some n
  | .vbool b => some (if b then 1 else 0)
  | .vnull => some 0
  | _ => none

/-- Lexicographic order on character sequences, as JS compares strings
(code-unit by code-unit, a proper leading block being smaller). -/
def charListLt : List Char → List Char → Bool
  | [], [] => false
  | [], _ :: _ => true
  | _ :: _, [] => false
  | a :: as, b :: bs => if a < b then true else if b < a then false else charListLt as bs

/-- JS `<` on the modelled values: string-string compares lexicographically,
otherwise both sides coerce to numbers; an incomparable pair (a NaN outcome)
yields `false`. -/
def jsLt (a b : Value) : Bool :=
  match a, b with
  | .vstr s, .vstr t => charListLt s.toList t.toList
  | _, _ =>
    match a.toNum, b.toNum with
    | some x, some y => decide (x < y)
    | _, _ => false

/-- JS `<=`, with the same NaN-style `false` on incomparable pairs; on
strings `s <= t` is the negation of `t < s`. -/
def jsLe (a b : Value) : Bool :=
  match a, b with
  | .vstr s, .vstr t => !(charListLt t.toList s.toList)
  | _, _ =>
    match a.toNum, b.toNum with
    | some x, some y => decide (x ≤ y)
    | _, _ => false

/-- JS `>`. -/
def jsGt (a b : Value) : Bool := jsLt b a

/-- JS `>=`. -/
def jsGe (a b : Value) : Bool := jsLe b a

/-- `String.prototype.startsWith`, on the character-sequence view. -/
def strStartsWith (s p : String) : Bool :=
  p.toList.isPrefixOf s.toList

/-- `String.prototype.endsWith`, on the character-sequence view. -/
def strEndsWith (s p : String) : Bool :=
  p.toList.isSuffixOf s.toList

/-- Helper for `String.prototype.includes`: scan for a position where the
pattern is a leading block of the remaining characters. -/
def infixAux (p : List Char) (l : List Char) : Bool :=
  match l with
  | [] => p.isEmpty
  | c :: rest => p.isPrefixOf (c :: rest) || infixAux p rest

/-- `String.prototype.includes`: substring containment. -/
def strIncludes (s pat : String) : Bool :=
  infixAux pat.toList s.toList

/-- One operator entry of an Operator Map together with its operand, as the
`switch` in `Entity.matches` distinguishes them.  The `$in`/`$nin` operands
are arrays (as the `Query` type declares).  `unknownOp` stands for any
unrecognized operator symbol (the `default` branch). -/
inductive FilterCond where
  | opEq (v : Value)
  | opNe (v : Value)
  | opGt (v : Value)
  | opGte (v : Value)
  | opLt (v : Value)
  | opLte (v : Value)
  | opIn (l : List Value)
  | opNin (l : List Value)
  | opStartsWith (v : Value)
  | opEndsWith (v : Value)
  | opContains (v : Value)
  | unknownOp

/-- The value a filter clause binds to a field: either a plain object — an
operator map, its entries in key order — or anything else (including `null`
and arrays), which the `else` branch of `matches` compares by strict
equality. -/
inductive QVal where
  | lit (v : Value)
  | ops (cs : List FilterCond)

/-- A Filter Clause: field name to literal-or-operator-map, in key order. -/
abbrev Clause := List (String × QVal)

/-- A stored record: field name to value, in key order. -/
abbrev Record := List (String × Value)

/-- JS property access `item[key]`: an absent field reads as `undefined`. -/
def getField (r : Record) (k : String) : Value :=
  match r.find? (fun p => p.1 == k) with
  | some p => p.2
  | none => .vundefined

/-- Whether one operator entry lets the record value through.  Each case
states the condition under which the corresponding `case` of the `switch` in
`Entity.matches` does not `return false`; in particular each string operator
only constrains when both the field value and the operand are strings, and
otherwise imposes nothing. -/
def condHolds (itemValue : Value) : FilterCond → Bool
  | .opEq v => itemValue == v
  | .opNe v => !(itemValue == v)
  | .opGt v => !(jsLe itemValue v)
  | .opGte v => !(jsLt itemValue v)
  | .opLt v => !(jsGe itemValue v)
  | .opLte v => !(jsGt itemValue v)
  | .opIn l => l.contains itemValue
  | .opNin l => !(l.contains itemValue)
  | .opStartsWith v =>
    match itemValue, v with
    | .vstr s, .vstr p => strStartsWith s p
    | _, _ => true
  | .opEndsWith v =>
    match itemValue, v with
    | .vstr s, .vstr p => strEndsWith s p
    | _, _ => true
  | .opContains v =>
    match itemValue, v with
    | .vstr s, .vstr p => strIncludes s p
    | _, _ => true
  | .unknownOp => false

/-- `Entity.matches(item, query)`: every clause field must pass — a literal
needs strict equality, an operator map needs every entry to hold (the loops
return `false` at the first failing check, i.e. a conjunction). -/
def Entity.matches (item : Record) (query : Clause) : Bool :=
  query.all (fun kv =>
    let itemValue := getField item kv.1
    match kv.2 with
    | .lit v => itemValue == v
    | .ops cs => cs.all (condHolds itemValue))


/-- Cardinality intent of a relation declaration. -/
inductive RelKind where
  | oneToOne
  | oneToMany
  | manyToMany

/-- The static content of a relation declaration,
`new OneToOne/OneToMany/ManyToMany(storeName, foreignKey, localKey = "id")`. -/
structure RelDesc where
  kind : RelKind
  storeName : String
  foreignKey : String
  localKey : String

/-- The bound record class: instantiating it yields its `relations()` table
(relation name to descriptor, in declaration order). -/
structure ModelClass where
  relations : List (String × RelDesc)

/-- The builder state of `Entity<T>`: bound store name, accumulated clauses
(`queries`), pagination (`take`/`offset`, `null` when never set), the
relation-loading directive (`withs`, modelled by its key set in insertion
order — the refinement callbacks only shape the related sub-query, which no
property below inspects) and the optionally bound model class. -/
structure Entity where
  storeName : String
  queries : List Clause
  take : Option Int
  offset : Option Int
  withs : List String
  modelClass : Option ModelClass

/-- `new Entity(storeName, modelClass)`: fresh builder state. -/
def Entity.newEntity (storeName : String) (modelClass : Option ModelClass) : Entity :=
  ⟨storeName, [], none, none, [], modelClass⟩

/-- `where(query)`: appends the clause and returns the same handle. -/
def Entity.whereQ (s : Entity) (query : Clause) : Entity :=
  { s with queries := s.queries ++ [query] }

/-- `limit(count)`: overwrites `take`. -/
def Entity.limit (s : Entity) (count : Int) : Entity :=
  { s with take := some count }

/-- `skip(count)`: overwrites `offset`. -/
def Entity.skip (s : Entity) (count : Int) : Entity :=
  { s with offset := some count }

/-- `with(withs)`: overwrites the directive (by its key set). -/
def Entity.withQ (s : Entity) (withs : List String) : Entity :=
  { s with withs := withs }

/-- `clear()`: wipes clauses, pagination and directive; the store binding and
model class stay. -/
def Entity.clear (s : Entity) : Entity :=
  { s with queries := [], take := none, offset := none, withs := [] }

/-- `Array.prototype.slice(start)`, the one-argument call in `get`: a negative
start counts from the end of the array, clamped at 0; `List.drop` already
clamps a start beyond the length exactly as `slice` does. -/
def jsSliceFrom (l : List α) (start : Int) : List α :=
  if start < 0 then l.drop (max ((l.length : Int) + start) 0).toNat
  else l.drop start.toNat

/-- `Array.prototype.slice(0, e)`, the two-argument call in `get`: a negative
end counts from the end of the array, clamped at 0; `List.take` already
clamps an end beyond the length exactly as `slice` does. -/
def jsSliceTo (l : List α) (e : Int) : List α :=
  if e < 0 then l.take (max ((l.length : Int) + e) 0).toNat
  else l.take e.toNat

/-- The ASCII apostrophe, as used by the error message of `Model.relation`. -/
def squote : String := String.mk [Char.ofNat 39]

/-- The error message thrown by `Model.relation(name)` for a missing name. -/
def relErrMsg (name : String) : String :=
  "Relation " ++ squote ++ name ++ squote ++ " not defined on model."

/-- Association-list lookup `relations[name]`. -/
def lookupRel (rels : List (String × RelDesc)) (name : String) : Option RelDesc :=
  match rels.find? (fun p => p.1 == name) with
  | some p => some p.2
  | none => none

/-- `Model.relation(name)`: returns the declared descriptor, or throws the
error naming the relation when `relations()` has no entry for `name`. -/
def Model.relation (mc : ModelClass) (name : String) : Except String RelDesc :=
  match lookupRel mc.relations name with
  | some r => Except.ok r
  | none => Except.error (relErrMsg name)

/-- The loop body of `loadRelations` over the directive names, in order:
`modelInstance.relation(relationName)` throws at the first name missing from
the relation table; a found relation is resolved and attached (the attachment
mutates only the record passed in, never the builder, and no property below
reads the attached field, so only the error behavior is represented). -/
def relLoop (mc : ModelClass) : List String → Except String Unit
  | [] => Except.ok ()
  | name :: rest =>
    match Model.relation mc name with
    | Except.error e => Except.error e
    | Except.ok _ => relLoop mc rest

/-- `Entity.loadRelations(model)`: returns silently when no model class is
bound or when the instantiated model declares no relations at all; otherwise
walks the directive names through `Model.relation`. -/
def Entity.loadRelations (s : Entity) (_model : Record) : Except String Unit :=
  match s.modelClass with
  | none => Except.ok ()
  | some mc =>
    if mc.relations.isEmpty then Except.ok ()
    else relLoop mc s.withs

/-- The `for (const result of results) await this.loadRelations(result)` loop
of `get`: records are handled strictly one after the other, the first thrown
error aborting the loop. -/
def loadAllRelations (s : Entity) : List Record → Except String Unit
  | [] => Except.ok ()
  | r :: rest =>
    match s.loadRelations r with
    | Except.error e => Except.error e
    | Except.ok _ => loadAllRelations s rest

/-- How a call to `get()` ends.  `stuck` renders the case where
`loadRelations` throws inside the `async` success handler: the handler's own
promise rejects unhandled, neither `resolve` nor `reject` is ever called on
the promise `get` returned, and the `clear()` after the `await` is skipped. -/
inductive GetOutcome where
  | resolved (results : List Record)
  | rejected (e : String)
  | stuck (e : String)

/-- Whether the promise settles at all (resolves or rejects). -/
def GetOutcome.settled : GetOutcome → Bool
  | .stuck _ => false
  | _ => true

/-- The statement `if (this.offset) { results = results.slice(this.offset) }`
of `get`: a never-set (`null`) or zero offset — JS falsiness — leaves the
records alone. -/
def applySkip (o : Option Int) (l : List Record) : List Record :=
  match o with
  | some n => if n == 0 then l else jsSliceFrom l n
  | none => l

/-- The statement `if (this.take) { results = results.slice(0, this.take) }`
of `get`: a never-set (`null`) or zero cap — JS falsiness — leaves the
records alone. -/
def applyTake (t : Option Int) (l : List Record) : List Record :=
  match t with
  | some n => if n == 0 then l else jsSliceTo l n
  | none => l

/-- `get()`, as a function of the builder state and of the store's answer to
`store.getAll()` (`Except.error` being the `onerror` path).  On success:
filter by every accumulated clause in order, then `slice(offset)` when
`offset` is truthy, then `slice(0, take)` when `take` is truthy, then load
relations when the directive is nonempty, then clear and resolve.  On store
error: clear and reject. -/
def Entity.get (s : Entity) (fetched : Except String (List Record)) :
    GetOutcome × Entity :=
  match fetched with
  | Except.error e => (GetOutcome.rejected e, s.clear)
  | Except.ok rs =>
    let results := s.queries.foldl
      (fun acc query => acc.filter (fun item => Entity.matches item query)) rs
    let results := applyTake s.take (applySkip s.offset results)
    if s.withs.isEmpty then (GetOutcome.resolved results, s.clear)
    else
      match loadAllRelations s results with
      | Except.ok _ => (GetOutcome.resolved results, s.clear)
      | Except.error e => (GetOutcome.stuck e, s)

/-- How a call to `find(id)` ends; `resolved none` is the absent result
(`undefined`), and `stuck` is as for `get`. -/
inductive FindOutcome where
  | resolved (result : Option Record)
  | rejected (e : String)
  | stuck (e : String)

/-- Whether the promise settles at all (resolves or rejects). -/
def FindOutcome.settled : FindOutcome → Bool
  | .stuck _ => false
  | _ => true

/-- `find(id)`, as a function of the builder state and of the store's answer
to `store.get(id)`: the fetched record (or absence) is returned as-is — no
accumulated clause, `take` or `offset` is consulted — with relations loaded
first when a record was found and the directive is nonempty; state is cleared
on both the resolve and the reject path. -/
def Entity.find (s : Entity) (fetched : Except String (Option Record)) :
    FindOutcome × Entity :=
  match fetched with
  | Except.error e => (FindOutcome.rejected e, s.clear)
  | Except.ok result =>
    match result with
    | some r =>
      if s.withs.isEmpty then (FindOutcome.resolved (some r), s.clear)
      else
        match s.loadRelations r with
        | Except.ok _ => (FindOutcome.resolved (some r), s.clear)
        | Except.error e => (FindOutcome.stuck e, s)
    | none => (FindOutcome.resolved none, s.clear)

/-- The store's by-key lookup backing `find`: the record whose `id` key equals
the argument (keys are unique per store, `find?` takes the first). -/
def storeGet (st : List Record) (id : Int) : Option Record :=
  st.find? (fun r => getField r "id" == Value.vnum id)

/-- A `Relation`: per `class Relation extends Entity`, an entity state — built
by `super(storeName)`, hence with no bound model class of its own — plus the
`(foreignKey, localKey)` pair. -/
structure Relation where
  entity : Entity
  foreignKey : String
  localKey : String

/-- `OneToOne.getRelated(model)`:
`return this.where({ [this.foreignKey]: model[this.localKey] })`. -/
def OneToOne.getRelated (r : Relation) (model : Record) : Relation :=
  { r with entity := r.entity.whereQ [(r.foreignKey, QVal.lit (getField model r.localKey))] }

/-- `OneToMany.getRelated(model)`:
`this.where({ [this.foreignKey]: model[this.localKey] }); return this;`. -/
def OneToMany.getRelated (r : Relation) (model : Record) : Relation :=
  let r2 := { r with entity := r.entity.whereQ [(r.foreignKey, QVal.lit (getField model r.localKey))] }
  r2

/-- Sample record A, as in the store-ordered scenario [A,B,C,D]. -/
def recA : Record := [("id", Value.vnum 1), ("name", Value.vstr "A")]

/-- Sample record B. -/
def recB : Record := [("id", Value.vnum 2), ("name", Value.vstr "B")]

/-- Sample record C. -/
def recC : Record := [("id", Value.vnum 3), ("name", Value.vstr "C")]

/-- Sample record D. -/
def recD : Record := [("id", Value.vnum 4), ("name", Value.vstr "D")]

/-- A sample model class declaring exactly one relation, `posts`. -/
def mcPosts : ModelClass :=
  ⟨[("posts", ⟨RelKind.oneToMany, "posts", "userId", "id"⟩)]⟩

/-! Helper lemmas about the embedding, shared by several results below. -/

/-- Folding the per-clause filters over the fetched records is the single
filter by the conjunction of all clauses. -/
theorem foldl_filter_matches (qs : List Clause) (recs : List Record) :
    qs.foldl (fun acc query => acc.filter (fun item => Entity.matches item query)) recs =
      recs.filter (fun r => qs.all (fun q => Entity.matches r q)) := by
  induction qs generalizing recs with
  | nil => simp
  | cons q qs ih =>
    simp only [List.foldl_cons, ih, List.filter_filter, List.all_cons]
    apply List.filter_congr
    intro a _
    rw [Bool.and_comm]

/-- `slice(start)` with a non-negative start drops that many records. -/
theorem jsSliceFrom_nonneg (l : List α) (n : Int) (h : 0 ≤ n) :
    jsSliceFrom l n = l.drop n.toNat := by
  unfold jsSliceFrom
  rw [if_neg (by omega)]

/-- `slice(0, e)` with a non-negative end takes that many records. -/
theorem jsSliceTo_nonneg (l : List α) (n : Int) (h : 0 ≤ n) :
    jsSliceTo l n = l.take n.toNat := by
  unfold jsSliceTo
  rw [if_neg (by omega)]

/-- `slice(start)` with a negative start keeps the last `k` records
(all of them when `k` exceeds the length). -/
theorem jsSliceFrom_neg (l : List α) (k : Nat) (hk : 0 < k) :
    jsSliceFrom l (-(k : Int)) = l.drop (l.length - k) := by
  unfold jsSliceFrom
  rw [if_pos (by omega)]
  congr 1
  omega

/-- `slice(0, e)` with a negative end drops the last `k` records
(all of them when `k` exceeds the length). -/
theorem jsSliceTo_neg (l : List α) (k : Nat) (hk : 0 < k) :
    jsSliceTo l (-(k : Int)) = l.take (l.length - k) := by
  unfold jsSliceTo
  rw [if_pos (by omega)]
  congr 1
  omega

/-- `loadAllRelations` reads only the directive and the model class. -/
theorem loadAll_congr (a b : Entity) (hw : a.withs = b.withs)
    (hm : a.modelClass = b.modelClass) (l : List Record) :
    loadAllRelations a l = loadAllRelations b l := by
  induction l with
  | nil => rfl
  | cons r rest ih =>
    show (match Entity.loadRelations a r with
          | Except.error e => Except.error e
          | Except.ok _ => loadAllRelations a rest) = _
    rw [show Entity.loadRelations a r = Entity.loadRelations b r from by
          unfold Entity.loadRelations; rw [hm, hw], ih]
    rfl

/-- After any `get`, the builder is either cleared or — only in the unsettled
relation-error case — left untouched. -/
theorem get_snd (s : Entity) (fetched : Except String (List Record)) :
    (Entity.get s fetched).2 = s.clear ∨
      ((Entity.get s fetched).2 = s ∧ (Entity.get s fetched).1.settled = false) := by
  unfold Entity.get
  cases fetched with
  | error e => exact Or.inl rfl
  | ok rs =>
    dsimp only
    split
    · exact Or.inl rfl
    · split
      · exact Or.inl rfl
      · exact Or.inr ⟨rfl, rfl⟩

/-- After any `find`, the builder is either cleared or — only in the unsettled
relation-error case — left untouched. -/
theorem find_snd (s : Entity) (fetched : Except String (Option Record)) :
    (Entity.find s fetched).2 = s.clear ∨
      ((Entity.find s fetched).2 = s ∧ (Entity.find s fetched).1.settled = false) := by
  unfold Entity.find
  cases fetched with
  | error e => exact Or.inl rfl
  | ok result =>
    dsimp only
    match result with
    | none => exact Or.inl rfl
    | some r =>
      dsimp only
      split
      · exact Or.inl rfl
      · split
        · exact Or.inl rfl
        · exact Or.inr ⟨rfl, rfl⟩

/-- The result of `find` reads only the fetched record, the directive and the
model class — never the accumulated clauses or pagination. -/
theorem find_fst_congr (a b : Entity) (fetched : Except String (Option Record))
    (hw : a.withs = b.withs) (hm : a.modelClass = b.modelClass) :
    (Entity.find a fetched).1 = (Entity.find b fetched).1 := by
  unfold Entity.find
  cases fetched with
  | error e => rfl
  | ok result =>
    match result with
    | none => rfl
    | some r =>
      dsimp only
      rw [show Entity.loadRelations a r = Entity.loadRelations b r from by
            unfold Entity.loadRelations; rw [hm, hw], hw]
      split
      · rfl
      · split <;> rfl

/-! The claims. -/

/-- C1, counterexample: on the record `{x: 5}` the clause
`{x: {$contains: "a"}}` — a non-string field value under a string operator —
MATCHES (evaluation returns `true`), whereas the claim says such an operator
is treated as not matching (returns `false` for the clause). -/
theorem c1_counterexample_nonstring_clause_matches :
    Entity.matches [("x", Value.vnum 5)]
      [("x", QVal.ops [FilterCond.opContains (Value.vstr "a")])] = true := rfl

/-- C1 (amended): when either the record's field value or the operand of
`$startsWith`/`$endsWith`/`$contains` is not a string, the operator is
silently skipped — it imposes no constraint, so a clause consisting of such
an operator matches every record; no error is raised (the evaluator is a
total function). -/
theorem c1_nonstring_string_operator_imposes_nothing
    (r : Record) (f : String) (v : Value)
    (h : Value.isStr (getField r f) = false ∨ Value.isStr v = false) :
    Entity.matches r [(f, QVal.ops [FilterCond.opStartsWith v])] = true ∧
    Entity.matches r [(f, QVal.ops [FilterCond.opEndsWith v])] = true ∧
    Entity.matches r [(f, QVal.ops [FilterCond.opContains v])] = true := by
  have key : ∀ (iv w : Value), Value.isStr iv = false ∨ Value.isStr w = false →
      condHolds iv (FilterCond.opStartsWith w) = true ∧
      condHolds iv (FilterCond.opEndsWith w) = true ∧
      condHolds iv (FilterCond.opContains w) = true := by
    intro iv w hw
    cases iv <;> cases w <;> simp_all [condHolds, Value.isStr]
  simp only [Entity.matches, List.all_cons, List.all_nil, Bool.and_true]
  exact ⟨(key _ _ h).1, (key _ _ h).2.1, (key _ _ h).2.2⟩

/-- C1, witness for the amended statement at the record `{x: 5}` and
operand `"a"`. -/
theorem c1_amended_witness :
    (Value.isStr (getField [("x", Value.vnum 5)] "x") = false ∨
      Value.isStr (Value.vstr "a") = false) ∧
    Entity.matches [("x", Value.vnum 5)]
      [("x", QVal.ops [FilterCond.opStartsWith (Value.vstr "a")])] = true :=
  ⟨Or.inl rfl,
    (c1_nonstring_string_operator_imposes_nothing [("x", Value.vnum 5)] "x"
      (Value.vstr "a") (Or.inl rfl)).1⟩

/-- C2, evaluation at the failing input.  A builder bound to a model whose
relation table contains only `posts` is configured — with no error at
configuration time — with a directive naming `author`; on `get` over a
nonempty store, the error naming the relation is thrown at resolution time
inside the success handler, but the call never settles (neither resolves nor
rejects: the outcome is `stuck`, not `rejected`), and the builder state is
not cleared. -/
theorem c2_unknown_relation_error_never_propagates :
    Entity.get ((Entity.newEntity "users" (some mcPosts)).withQ ["author"])
        (Except.ok [recA]) =
      (GetOutcome.stuck (relErrMsg "author"),
        (Entity.newEntity "users" (some mcPosts)).withQ ["author"]) ∧
    GetOutcome.settled (GetOutcome.stuck (relErrMsg "author")) = false ∧
    relErrMsg "author" =
      "Relation " ++ squote ++ "author" ++ squote ++ " not defined on model." :=
  ⟨rfl, rfl, rfl⟩

/-- C7: `OneToOne.getRelated` and `OneToMany.getRelated` are the same
function on the embedded state — both append the clause
`{foreignKey: model[localKey]}` to the relation's query and return the same
handle — so executing either over the same fetched data gives the same
outcome and state. -/
theorem c7_one_to_one_one_to_many_equivalent (r : Relation) (model : Record)
    (fetched : Except String (List Record)) :
    OneToOne.getRelated r model = OneToMany.getRelated r model ∧
    (OneToOne.getRelated r model).entity.queries =
      r.entity.queries ++ [[(r.foreignKey, QVal.lit (getField model r.localKey))]] ∧
    Entity.get (OneToOne.getRelated r model).entity fetched =
      Entity.get (OneToMany.getRelated r model).entity fetched :=
  ⟨rfl, rfl, rfl⟩

/-- C8: a `$in` clause matches exactly when the corresponding `$nin` clause
does not (they are exact complements), and `$nin` matches precisely the
records whose field value is not in the operand list. -/
theorem c8_in_nin_complementary (r : Record) (f : String) (L : List Value) :
    Entity.matches r [(f, QVal.ops [FilterCond.opIn L])] =
      !(Entity.matches r [(f, QVal.ops [FilterCond.opNin L])]) ∧
    Entity.matches r [(f, QVal.ops [FilterCond.opNin L])] =
      !(L.contains (getField r f)) := by
  constructor <;> simp [Entity.matches, condHolds]

/-- C3: whenever `get` settles (resolves, or rejects with a store failure)
the builder state afterward is the cleared state, likewise for `find`; and a
second `get` on the cleared handle, with no re-configuration, resolves with
the unfiltered full record set of the store. -/
theorem c3_builder_cleared_after_execution
    (s : Entity) (fetched : Except String (List Record))
    (ffetched : Except String (Option Record)) (recs : List Record)
    (hg : (Entity.get s fetched).1.settled = true) :
    (Entity.get s fetched).2 = s.clear ∧
    ((Entity.find s ffetched).1.settled = true → (Entity.find s ffetched).2 = s.clear) ∧
    Entity.get s.clear (Except.ok recs) = (GetOutcome.resolved recs, s.clear) := by
  refine ⟨?_, ?_, rfl⟩
  · rcases get_snd s fetched with h | ⟨_, h2⟩
    · exact h
    · rw [h2] at hg
      exact Bool.noConfusion hg
  · intro hf
    rcases find_snd s ffetched with h | ⟨_, h2⟩
    · exact h
    · rw [h2] at hf
      exact Bool.noConfusion hf

/-- C3, witness: a configured builder whose store fetch rejects is cleared,
a `find` that resolves is cleared, and the follow-up `get` returns the whole
store. -/
theorem c3_witness :
    (Entity.get ⟨"users", [[("age", QVal.lit (Value.vnum 5))]], some 3, some 1, [], none⟩
        (Except.error "store failure")).2 =
      Entity.clear ⟨"users", [[("age", QVal.lit (Value.vnum 5))]], some 3, some 1, [], none⟩ ∧
    ((Entity.find ⟨"users", [[("age", QVal.lit (Value.vnum 5))]], some 3, some 1, [], none⟩
        (Except.ok none)).1.settled = true →
      (Entity.find ⟨"users", [[("age", QVal.lit (Value.vnum 5))]], some 3, some 1, [], none⟩
          (Except.ok none)).2 =
        Entity.clear ⟨"users", [[("age", QVal.lit (Value.vnum 5))]], some 3, some 1, [], none⟩) ∧
    Entity.get
        (Entity.clear ⟨"users", [[("age", QVal.lit (Value.vnum 5))]], some 3, some 1, [], none⟩)
        (Except.ok [recA]) =
      (GetOutcome.resolved [recA],
        Entity.clear ⟨"users", [[("age", QVal.lit (Value.vnum 5))]], some 3, some 1, [], none⟩) :=
  c3_builder_cleared_after_execution _ _ _ _ rfl

/-- C4: with clauses `qs`, a positive skip `N` and a positive limit `M` and
no relation directive, `get` resolves with the stages applied in the order
filter (conjunction of all clauses), then drop the first `N`, then take the
first `M` of the remainder. -/
theorem c4_filter_then_skip_then_limit
    (storeName : String) (mc : Option ModelClass) (qs : List Clause)
    (recs : List Record) (N M : Int) (hN : 0 < N) (hM : 0 < M) :
    (Entity.get ⟨storeName, qs, some M, some N, [], mc⟩ (Except.ok recs)).1 =
      GetOutcome.resolved
        (((recs.filter (fun r => qs.all (fun q => Entity.matches r q))).drop
            N.toNat).take M.toNat) := by
  have hN0 : ((N == 0) : Bool) = false := by simp; omega
  have hM0 : ((M == 0) : Bool) = false := by simp; omega
  simp only [Entity.get, foldl_filter_matches, applySkip, applyTake, hN0, hM0,
    Bool.false_eq_true, if_false, List.isEmpty_nil, if_true]
  rw [jsSliceFrom_nonneg _ _ (le_of_lt hN), jsSliceTo_nonneg _ _ (le_of_lt hM)]

/-- C4, witness: on the store-ordered records [A,B,C,D] with no filters,
`skip(1).limit(2).get()` yields [B,C]. -/
theorem c4_witness :
    (0 : Int) < 1 ∧ (0 : Int) < 2 ∧
    (Entity.get ⟨"users", [], some 2, some 1, [], none⟩
        (Except.ok [recA, recB, recC, recD])).1 = GetOutcome.resolved [recB, recC] := by
  refine ⟨by decide, by decide, ?_⟩
  have h := c4_filter_then_skip_then_limit "users" none [] [recA, recB, recC, recD] 1 2
    (by decide) (by decide)
  exact h.trans (by rfl)

/-- C5: `limit(0)` makes `get` behave exactly as if no cap were set (all
surviving records are returned), `skip(0)` as if no offset were set; each
`limit`/`skip` call overwrites the previous value; and a builder with both
set to zero resolves with every record of the store. -/
theorem c5_zero_pagination_is_noop_and_overwrites
    (s : Entity) (fetched : Except String (List Record)) (a b : Int)
    (storeName : String) (mc : Option ModelClass) (recs : List Record) :
    (Entity.get (s.limit 0) fetched).1 = (Entity.get { s with take := none } fetched).1 ∧
    (Entity.get (s.skip 0) fetched).1 = (Entity.get { s with offset := none } fetched).1 ∧
    (s.limit a).limit b = s.limit b ∧
    (s.skip a).skip b = s.skip b ∧
    Entity.get (((Entity.newEntity storeName mc).skip 0).limit 0) (Except.ok recs) =
      (GetOutcome.resolved recs, Entity.newEntity storeName mc) := by
  refine ⟨?_, ?_, rfl, rfl, rfl⟩
  · cases fetched with
    | error e => rfl
    | ok rs =>
      show (Entity.get ⟨s.storeName, s.queries, some 0, s.offset, s.withs, s.modelClass⟩
            (Except.ok rs)).1 =
          (Entity.get ⟨s.storeName, s.queries, none, s.offset, s.withs, s.modelClass⟩
            (Except.ok rs)).1
      unfold Entity.get
      dsimp only
      rw [loadAll_congr ⟨s.storeName, s.queries, some 0, s.offset, s.withs, s.modelClass⟩
            ⟨s.storeName, s.queries, none, s.offset, s.withs, s.modelClass⟩ rfl rfl,
        show applyTake (some 0) = applyTake none from rfl]
      split
      · rfl
      · split <;> rfl
  · cases fetched with
    | error e => rfl
    | ok rs =>
      show (Entity.get ⟨s.storeName, s.queries, s.take, some 0, s.withs, s.modelClass⟩
            (Except.ok rs)).1 =
          (Entity.get ⟨s.storeName, s.queries, s.take, none, s.withs, s.modelClass⟩
            (Except.ok rs)).1
      unfold Entity.get
      dsimp only
      rw [loadAll_congr ⟨s.storeName, s.queries, s.take, some 0, s.withs, s.modelClass⟩
            ⟨s.storeName, s.queries, s.take, none, s.withs, s.modelClass⟩ rfl rfl,
        show applySkip (some 0) = applySkip none from rfl]
      split
      · rfl
      · split <;> rfl

/-- C6: `find` on a key absent from the store resolves with the absent value
(`none` — not an error and not an empty list), its result never depends on
the accumulated clauses, `limit` or `skip`, and the builder is cleared
afterward. -/
theorem c6_find_absent_key
    (storeName : String) (mc : Option ModelClass) (qs : List Clause)
    (t o : Option Int) (w : List String) (st : List Record) (id : Int)
    (habs : storeGet st id = none) :
    Entity.find ⟨storeName, qs, t, o, w, mc⟩ (Except.ok (storeGet st id)) =
      (FindOutcome.resolved none, Entity.clear ⟨storeName, qs, t, o, w, mc⟩) ∧
    ∀ (f : Except String (Option Record)) (qs2 : List Clause) (t2 o2 : Option Int),
      (Entity.find ⟨storeName, qs, t, o, w, mc⟩ f).1 =
        (Entity.find ⟨storeName, qs2, t2, o2, w, mc⟩ f).1 := by
  refine ⟨by rw [habs]; rfl, fun f qs2 t2 o2 => find_fst_congr _ _ f rfl rfl⟩

/-- C6, witness: a store holding only the record with id 1, looked up at
key 2, under a builder with stale clauses and pagination. -/
theorem c6_witness :
    storeGet [[("id", Value.vnum 1)]] 2 = none ∧
    Entity.find ⟨"users", [[("age", QVal.lit (Value.vnum 5))]], some 1, some 1, [], none⟩
        (Except.ok (storeGet [[("id", Value.vnum 1)]] 2)) =
      (FindOutcome.resolved none,
        Entity.clear ⟨"users", [[("age", QVal.lit (Value.vnum 5))]], some 1, some 1, [], none⟩) :=
  ⟨rfl,
    (c6_find_absent_key "users" none [[("age", QVal.lit (Value.vnum 5))]]
      (some 1) (some 1) [] [[("id", Value.vnum 1)]] 2 rfl).1⟩

/-- C9: the empty filter clause matches every record, a clause binding a
field to an empty operator map matches every record, and `where({})` leaves
the outcome of `get` unchanged. -/
theorem c9_empty_clause_matches_everything
    (r : Record) (f : String) (s : Entity)
    (fetched : Except String (List Record)) :
    Entity.matches r [] = true ∧
    Entity.matches r [(f, QVal.ops [])] = true ∧
    (Entity.get (s.whereQ []) fetched).1 = (Entity.get s fetched).1 := by
  refine ⟨rfl, rfl, ?_⟩
  cases fetched with
  | error e => rfl
  | ok rs =>
    show (Entity.get ⟨s.storeName, s.queries ++ [[]], s.take, s.offset, s.withs, s.modelClass⟩
          (Except.ok rs)).1 = (Entity.get s (Except.ok rs)).1
    unfold Entity.get
    dsimp only
    have hfold : (s.queries ++ [([] : Clause)]).foldl
        (fun acc query => acc.filter (fun item => Entity.matches item query)) rs =
        s.queries.foldl
          (fun acc query => acc.filter (fun item => Entity.matches item query)) rs := by
      rw [List.foldl_append]
      show ((s.queries.foldl _ rs).filter fun item => Entity.matches item ([] : Clause)) = _
      rw [show (fun item => Entity.matches item ([] : Clause)) = fun _ => true from rfl,
        List.filter_true]
    rw [hfold, loadAll_congr ⟨s.storeName, s.queries ++ [[]], s.take, s.offset, s.withs,
          s.modelClass⟩ s rfl rfl]
    split
    · rfl
    · split <;> rfl

/-- C10: for a negative argument `-k` (with `k > 0`), `limit(-k)` makes `get`
return all matching records except the last `k` (clamped to none when `k`
exceeds the count), and `skip(-k)` keeps only the last `k` matching records
(clamped to all of them): only falsiness of the stored values is checked
before handing them to `slice`. -/
theorem c10_negative_pagination
    (storeName : String) (mc : Option ModelClass) (qs : List Clause)
    (recs : List Record) (k : Nat) (hk : 0 < k) :
    (Entity.get ⟨storeName, qs, some (-(k : Int)), none, [], mc⟩ (Except.ok recs)).1 =
      GetOutcome.resolved
        ((recs.filter (fun r => qs.all (fun q => Entity.matches r q))).take
          ((recs.filter (fun r => qs.all (fun q => Entity.matches r q))).length - k)) ∧
    (Entity.get ⟨storeName, qs, none, some (-(k : Int)), [], mc⟩ (Except.ok recs)).1 =
      GetOutcome.resolved
        ((recs.filter (fun r => qs.all (fun q => Entity.matches r q))).drop
          ((recs.filter (fun r => qs.all (fun q => Entity.matches r q))).length - k)) := by
  have hne : (((-(k : Int)) == 0) : Bool) = false := by simp; omega
  constructor
  · simp only [Entity.get, foldl_filter_matches, applySkip, applyTake, hne,
      Bool.false_eq_true, if_false, List.isEmpty_nil, if_true]
    rw [jsSliceTo_neg _ k hk]
  · simp only [Entity.get, foldl_filter_matches, applySkip, applyTake, hne,
      Bool.false_eq_true, if_false, List.isEmpty_nil, if_true]
    rw [jsSliceFrom_neg _ k hk]

/-- C10, witness: on [A,B,C,D] with no filters, `limit(-1)` returns [A,B,C]
and `skip(-1)` returns [D]. -/
theorem c10_witness :
    0 < 1 ∧
    (Entity.get ⟨"users", [], some (-((1 : Nat) : Int)), none, [], none⟩
        (Except.ok [recA, recB, recC, recD])).1 =
      GetOutcome.resolved [recA, recB, recC] ∧
    (Entity.get ⟨"users", [], none, some (-((1 : Nat) : Int)), [], none⟩
        (Except.ok [recA, recB, recC, recD])).1 =
      GetOutcome.resolved [recD] := by
  have h := c10_negative_pagination "users" none [] [recA, recB, recC, recD] 1 (by decide)
  exact ⟨by decide, h.1.trans (by rfl), h.2.trans (by rfl)⟩
